import Mathlib

/-!
Verification of the stacks-signer run loop (`src/stacks-signer/src/runloop.rs`).

The run loop is embedded shallowly: the external capabilities (the wsts
Coordinator and Signer state machines, the stacker-db client, the stacks node
client, the message codec) are modelled as oracle inputs — explicit values or
functions giving the result each external call returns — while the control
flow of the run loop itself (state machine, command queue, event dispatch,
message filtering, retry loop) is translated function by function from the
Rust source.  Opaque payloads (packets, blocks, protocol messages, curve
points, public keys) are modelled as natural numbers, since the run loop never
inspects their contents.  A Rust `panic!` / `.unwrap()` failure and the
process-fatal initialization path are modelled by an `Option`/`Outcome`
`none`-like result.
-/

namespace StacksSigner

/-- Opaque wsts protocol packet (`wsts::net::Packet`). -/
abbrev Packet := Nat

/-- Opaque Nakamoto block proposal. -/
abbrev Block := Nat

/-- Opaque outbound protocol message (`wsts::net::Message`). -/
abbrev Msg := Nat

/-- Opaque curve point (aggregate public key). -/
abbrev Point := Nat

/-- Opaque ECDSA public key (`wsts::curve::ecdsa::PublicKey`). -/
abbrev PubKey := Nat

/-- Opaque taproot merkle root (`wsts::common::MerkleRoot`). -/
abbrev MerkleRoot := Nat

/-- Opaque completed-round result (`wsts::state_machine::OperationResult`). -/
abbrev OperationResult := Nat

/-- Opaque stacker-db ack value. -/
abbrev Ack := Nat

/-- Opaque client error (`crate::client::ClientError`). -/
abbrev ClientError := Nat

/-- `wsts::state_machine::PublicKeys`: the committee's key material.  The two
Rust `HashMap<u32, ecdsa::PublicKey>` fields are modelled as association
lists queried with `List.lookup`. -/
structure PublicKeys where
  signers : List (Nat × PubKey)
  key_ids : List (Nat × PubKey)
  deriving DecidableEq, Repr

/-- `RunLoopCommand`: which operation to perform (runloop.rs lines 26-38). -/
inductive RunLoopCommand where
  | Dkg : RunLoopCommand
  | Sign (message : List Nat) (is_taproot : Bool) (merkle_root : Option MerkleRoot) : RunLoopCommand
  deriving DecidableEq, Repr

/-- `State`: the RunLoop state (runloop.rs lines 42-52). -/
inductive State where
  | Uninitialized : State
  | Idle : State
  | Dkg : State
  | Sign : State
  deriving DecidableEq, Repr

/-- `calculate_coordinator` (runloop.rs lines 428-433): returns signer id `0`
together with `public_keys.signers.get(&0).unwrap()`.  The `.unwrap()` panics
when the map holds no key for id `0`; the panic is modelled as `none`. -/
def calculate_coordinator (public_keys : PublicKeys) : Option (Nat × PubKey) :=
  match public_keys.signers.lookup 0 with
  | some key => some (0, key)
  | none => none

/-- The signing threshold derived in `From<&Config> for RunLoop`
(runloop.rs line 301): `(total_key_shares * 7) / 10`. -/
def signing_threshold (total_key_shares : Nat) : Nat :=
  total_key_shares * 7 / 10

/-- The DKG threshold derived in `From<&Config> for RunLoop`
(runloop.rs line 304): `(total_key_shares * 9) / 10`. -/
def dkg_threshold (total_key_shares : Nat) : Nat :=
  total_key_shares * 9 / 10

/-- Oracle for the Coordinator capability's round-start calls: the result each
call would return at one invocation site. -/
structure CoordOracle where
  start_dkg_round : Except Unit Msg
  start_signing_round : List Nat → Bool → Option MerkleRoot → Except Unit Msg

/-- The round-start call `execute_command` makes for a given command. -/
def startResult (co : CoordOracle) (command : RunLoopCommand) : Except Unit Msg :=
  match command with
  | RunLoopCommand.Dkg => co.start_dkg_round
  | RunLoopCommand.Sign message is_taproot merkle_root =>
      co.start_signing_round message is_taproot merkle_root

/-- The state `execute_command` assigns on a successful start of a command. -/
def commandState : RunLoopCommand → State
  | RunLoopCommand.Dkg => State.Dkg
  | RunLoopCommand.Sign _ _ _ => State.Sign

/-- `execute_command` (runloop.rs lines 97-145).  Returns
`(success, new state, messages relayed via send_message_with_retry,
number of coordinator resets)`.  `relayAck` is the result
`send_message_with_retry` would return; the source binds it only to
debug-log it. -/
def execute_command (co : CoordOracle) (relayAck : Except Unit Ack)
    (state : State) (command : RunLoopCommand) :
    Bool × State × List Msg × Nat :=
  match command with
  | RunLoopCommand.Dkg =>
    match co.start_dkg_round with
    | Except.ok msg =>
      let _ack := relayAck
      (true, State.Dkg, [msg], 0)
    | Except.error _ => (false, state, [], 1)
  | RunLoopCommand.Sign message is_taproot merkle_root =>
    match co.start_signing_round message is_taproot merkle_root with
    | Except.ok msg =>
      let _ack := relayAck
      (true, State.Sign, [msg], 0)
    | Except.error _ => (false, state, [], 1)

/-- The `while !self.execute_command(&command)` retry loop inside
`process_next_command` (runloop.rs lines 157-159).  Each attempt consumes one
`CoordOracle` from the list (the result the coordinator returns on that
attempt); an empty list models a loop that has not yet succeeded (the source
loops forever in that case).  Returns
`(final state, relayed messages, resets, attempts)`. -/
def executeLoop (relayAck : Except Unit Ack) (state : State)
    (command : RunLoopCommand) :
    List CoordOracle → Option (State × List Msg × Nat × Nat)
  | [] => none
  | co :: rest =>
    match execute_command co relayAck state command with
    | (true, state', msgs, resets) => some (state', msgs, resets, 1)
    | (false, state', msgs, resets) =>
      match executeLoop relayAck state' command rest with
      | none => none
      | some (state'', msgs', resets', n) =>
          some (state'', msgs ++ msgs', resets + resets', n + 1)

/-- `process_next_command` (runloop.rs lines 148-170).  Returns
`(remaining queue, new state, relayed messages, resets, attempts)` where
`attempts` counts the calls to `execute_command`; `none` models the
non-terminating retry loop (oracle list exhausted without a success). -/
def process_next_command (relayAck : Except Unit Ack) (cos : List CoordOracle)
    (commands : List RunLoopCommand) (state : State) :
    Option (List RunLoopCommand × State × List Msg × Nat × Nat) :=
  match state with
  | State.Uninitialized => some (commands, State.Uninitialized, [], 0, 0)
  | State.Idle =>
    match commands with
    | [] => some ([], State.Idle, [], 0, 0)
    | command :: rest =>
      match executeLoop relayAck State.Idle command cos with
      | none => none
      | some (state', msgs, resets, attempts) =>
          some (rest, state', msgs, resets, attempts)
  | State.Dkg => some (commands, State.Dkg, [], 0, 0)
  | State.Sign => some (commands, State.Sign, [], 0, 0)

/-- The run-loop state the claims observe: the command queue, the `State`
value, and the aggregate key last installed into the coordinator via
`set_aggregate_public_key`. -/
structure RL where
  commands : List RunLoopCommand
  state : State
  aggKey : Option Point
  deriving DecidableEq, Repr

/-- Result of a call that can also panic (Rust `.unwrap()` / `.expect()`). -/
inductive Outcome (α : Type) where
  | panicked : Outcome α
  | err (e : ClientError) : Outcome α
  | ok (a : α) : Outcome α
  deriving DecidableEq, Repr

/-- `initialize` (runloop.rs lines 76-93).  `aggKeyResult` is what
`stacks_client.get_aggregate_public_key()` returns; an `Err` propagates via
`?`.  When no key is set, `calculate_coordinator` is called — its `.unwrap()`
panic surfaces as `Outcome.panicked` — and a `Dkg` command is pushed to the
front of the queue when this signer is the coordinator and the queue front is
not already a `Dkg` command.  On every `Ok` return the state is `Idle`. -/
def initRunLoop (rl : RL) (public_keys : PublicKeys) (signer_id : Nat)
    (aggKeyResult : Except ClientError (Option Point)) : Outcome RL :=
  match aggKeyResult with
  | Except.error e => Outcome.err e
  | Except.ok (some key) =>
      Outcome.ok { rl with aggKey := some key, state := State.Idle }
  | Except.ok none =>
    match calculate_coordinator public_keys with
    | none => Outcome.panicked
    | some (coordinator_id, _) =>
      let commands :=
        if coordinator_id = signer_id ∧ rl.commands.head? ≠ some RunLoopCommand.Dkg
        then RunLoopCommand.Dkg :: rl.commands
        else rl.commands
      Outcome.ok { rl with commands := commands, state := State.Idle }

/-- `StackerDBMessage` (crate::client): what a stacker-db chunk decodes to. -/
inductive StackerDBMessage where
  | Packet (packet : Packet) : StackerDBMessage
  | Block (block : Block) : StackerDBMessage
  deriving DecidableEq, Repr

/-- One modified stacker-db slot (`StackerDBChunkData`): slot id and raw
bytes. -/
structure Chunk where
  slot_id : Nat
  data : List Nat
  deriving DecidableEq, Repr

/-- The body of the `for_each` over modified slots in `process_event_miner`
(runloop.rs lines 177-223): an undecodable chunk and a `Packet` variant are
dropped with a warning; a `Block` is acted on only when this signer is the
coordinator and `is_valid_nakamoto_block` answers `Ok(true)` (an `Err` is
turned into `false` by `unwrap_or_else`), in which case a `Sign` command over
the serialized block is pushed to the back of the queue. -/
def miner_chunk_step (decode : List Nat → Option StackerDBMessage)
    (isValidBlock : Block → Except ClientError Bool)
    (serialize : Block → List Nat) (coordinator_id signer_id : Nat)
    (cmds : List RunLoopCommand) (chunk : Chunk) : List RunLoopCommand :=
  match decode chunk.data with
  | none => cmds
  | some (StackerDBMessage.Packet _) => cmds
  | some (StackerDBMessage.Block block) =>
    if coordinator_id = signer_id then
      match isValidBlock block with
      | Except.ok true =>
          cmds ++ [RunLoopCommand.Sign (serialize block) false none]
      | Except.ok false => cmds
      | Except.error _ => cmds
    else cmds

/-- `process_event_miner` (runloop.rs lines 173-224).  `decode` models
`read_next::<StackerDBMessage, _>` (`none` = undecodable chunk, dropped with
a warning); `isValidBlock` models `stacks_client.is_valid_nakamoto_block`
(an `Except.error` is treated as invalid via `unwrap_or_else`); `serialize`
models `block.serialize_to_vec()`.  Returns the updated command queue, or
`none` for the `calculate_coordinator` panic. -/
def process_event_miner (decode : List Nat → Option StackerDBMessage)
    (isValidBlock : Block → Except ClientError Bool)
    (serialize : Block → List Nat) (public_keys : PublicKeys) (signer_id : Nat)
    (commands : List RunLoopCommand) (chunks : List Chunk) :
    Option (List RunLoopCommand) :=
  match calculate_coordinator public_keys with
  | none => none
  | some (coordinator_id, _) =>
    some (chunks.foldl
      (miner_chunk_step decode isValidBlock serialize coordinator_id signer_id)
      commands)

/-- The `filter_map` over modified slots in `process_event_signer`
(runloop.rs lines 232-258): drop undecodable chunks, drop `Block` variants,
keep a `Packet` exactly when `packet.verify(public_keys, coordinator_key)`
holds. -/
def filter_packets (decode : List Nat → Option StackerDBMessage)
    (verify : Packet → PublicKeys → PubKey → Bool) (public_keys : PublicKeys)
    (coordinator_key : PubKey) (chunks : List Chunk) : List Packet :=
  chunks.filterMap (fun chunk =>
    match decode chunk.data with
    | none => none
    | some (StackerDBMessage.Packet packet) =>
      if verify packet public_keys coordinator_key then some packet else none
    | some (StackerDBMessage.Block _) => none)

/-- `process_event_signer` (runloop.rs lines 227-293).  `signerProcess` and
`coordProcess` model `signing_round.process_inbound_messages` and
`coordinator.process_inbound_messages`; a failure of either is replaced by
empty output via `unwrap_or_else`.  `relayRes` gives the result
`send_message_with_retry` returns for the n-th outbound message; each result
is only logged.  Returns `(packets fed to both capabilities,
(message, relay result) for every relay attempted, operation results)`;
`none` models the `calculate_coordinator` panic. -/
def process_event_signer (decode : List Nat → Option StackerDBMessage)
    (verify : Packet → PublicKeys → PubKey → Bool)
    (signerProcess : List Packet → Except Unit (List Msg))
    (coordProcess : List Packet → Except Unit (List Msg × List OperationResult))
    (relayRes : Nat → Except Unit Ack) (public_keys : PublicKeys)
    (chunks : List Chunk) :
    Option (List Packet × List (Msg × Except Unit Ack) × List OperationResult) :=
  match calculate_coordinator public_keys with
  | none => none
  | some (_, coordinator_public_key) =>
    let inbound_messages :=
      filter_packets decode verify public_keys coordinator_public_key chunks
    let outbound_messages :=
      match signerProcess inbound_messages with
      | Except.ok msgs => msgs
      | Except.error _ => []
    let (messages, operation_results) :=
      match coordProcess inbound_messages with
      | Except.ok r => r
      | Except.error _ => ([], [])
    let all_outbound := outbound_messages ++ messages
    let sends := all_outbound.enum.map (fun p => (p.2, relayRes p.1))
    some (inbound_messages, sends, operation_results)

/-- A `StackerDBChunksEvent`: the contract id it arrived on and the modified
slots. -/
structure Event where
  contract_id : Nat
  modified_slots : List Chunk
  deriving DecidableEq, Repr

/-- The environment of one pass: configuration values and the oracle results
of every external call the pass may make. -/
structure Env where
  minersId : Nat
  signersId : Nat
  public_keys : PublicKeys
  signer_id : Nat
  decode : List Nat → Option StackerDBMessage
  verify : Packet → PublicKeys → PubKey → Bool
  signerProcess : List Packet → Except Unit (List Msg)
  coordProcess : List Packet → Except Unit (List Msg × List OperationResult)
  relayRes : Nat → Except Unit Ack
  isValidBlock : Block → Except ClientError Bool
  serialize : Block → List Nat
  getAggKey : Except ClientError (Option Point)
  startOracles : List CoordOracle
  relayAck : Except Unit Ack

/-- The `if let Some(event)` dispatch block of `run_one_pass`
(runloop.rs lines 397-419): classify the event batch by the contract id it
arrived on — miner channel, signer channel (a non-empty operation-result
batch moves the state to `Idle` and is emitted), or unknown (logged and
dropped). -/
def dispatch_event (env : Env) (rl : RL) (ev : Event) :
    Option (RL × List OperationResult) :=
  if ev.contract_id = env.minersId then
    match process_event_miner env.decode env.isValidBlock env.serialize
        env.public_keys env.signer_id rl.commands ev.modified_slots with
    | none => none
    | some cmds' => some ({ rl with commands := cmds' }, [])
  else if ev.contract_id = env.signersId then
    match process_event_signer env.decode env.verify env.signerProcess
        env.coordProcess env.relayRes env.public_keys ev.modified_slots with
    | none => none
    | some (_, _, operation_results) =>
      if operation_results.length > 0 then
        some ({ rl with state := State.Idle }, operation_results)
      else
        some (rl, [])
  else some (rl, [])

/-- `run_one_pass` (runloop.rs lines 378-424).  Steps: append the arrived
command, initialize when `Uninitialized` (a client error here stands for the
exhausted retry budget, which `.expect()` turns into a process abort,
modelled as `none`), dispatch the event by contract id (a non-empty
operation-result batch from the signer channel sets the state to `Idle` and
is emitted), then `process_next_command`.  Returns
`(new run-loop state, emitted operation results, execute_command attempts)`;
`none` models a panic, fatal initialization, or a never-succeeding retry
loop. -/
def run_one_pass (env : Env) (rl : RL) (event : Option Event)
    (cmd : Option RunLoopCommand) :
    Option (RL × List OperationResult × Nat) :=
  let rl := { rl with commands := rl.commands ++ cmd.toList }
  let step1 : Option RL :=
    if rl.state = State.Uninitialized then
      match initRunLoop rl env.public_keys env.signer_id env.getAggKey with
      | Outcome.panicked => none
      | Outcome.err _ => none
      | Outcome.ok rl' => some rl'
    else some rl
  match step1 with
  | none => none
  | some rl =>
    let step2 : Option (RL × List OperationResult) :=
      match event with
      | none => some (rl, [])
      | some ev => dispatch_event env rl ev
    match step2 with
    | none => none
    | some (rl, emitted) =>
      match process_next_command env.relayAck env.startOracles rl.commands rl.state with
      | none => none
      | some (cmds', state', _msgs, _resets, attempts) =>
          some ({ rl with commands := cmds', state := state' }, emitted, attempts)

/-! ## Theorems -/

/-- Bridging lemma: `execute_command` is determined by the round-start call
the coordinator answers for the given command. -/
theorem execute_command_eq (co : CoordOracle) (a : Except Unit Ack)
    (st : State) (c : RunLoopCommand) :
    execute_command co a st c =
      match startResult co c with
      | Except.ok m => (true, commandState c, [m], 0)
      | Except.error _ => (false, st, [], 1) := by
  cases c with
  | Dkg =>
    cases h : co.start_dkg_round <;>
      simp [execute_command, startResult, commandState, h]
  | Sign message is_taproot merkle_root =>
    cases h : co.start_signing_round message is_taproot merkle_root <;>
      simp [execute_command, startResult, commandState, h]

/-- C9: the derived thresholds satisfy
`signing_threshold = floor(total_key_shares * 7 / 10)` and
`dkg_threshold = floor(total_key_shares * 9 / 10)`, and for every
`total_key_shares ≥ 1` the invariant
`signing_threshold ≤ dkg_threshold ≤ total_key_shares` holds. -/
theorem thresholds_invariant (n : Nat) (h : 1 ≤ n) :
    signing_threshold n = n * 7 / 10 ∧ dkg_threshold n = n * 9 / 10 ∧
    signing_threshold n ≤ dkg_threshold n ∧ dkg_threshold n ≤ n := by
  refine ⟨rfl, rfl, ?_, ?_⟩ <;>
    simp only [signing_threshold, dkg_threshold] <;> omega

/-- Witness for C9 at `total_key_shares = 3`. -/
theorem thresholds_invariant_witness :
    signing_threshold 3 = 3 * 7 / 10 ∧ dkg_threshold 3 = 3 * 9 / 10 ∧
    signing_threshold 3 ≤ dkg_threshold 3 ∧ dkg_threshold 3 ≤ 3 :=
  thresholds_invariant 3 (by decide)

/-- C2 counterexample: `calculate_coordinator` is not total — on a committee
whose signer map carries a key for signer 1 but none for signer 0, the
source's `public_keys.signers.get(&0).unwrap()` panics (modelled: `none`),
refuting "for every committee PublicKeys value it returns without failure or
panic". -/
theorem calculate_coordinator_panics_without_signer_zero :
    calculate_coordinator ⟨[(1, 42)], [(1, 42)]⟩ = none := rfl

/-- C2 (amended): `calculate_coordinator` is deterministic and
side-effect-free, and whenever the committee's signer map holds a key for
index 0 it returns index 0 paired with that signer's public key; when index 0
is absent the call panics. -/
theorem calculate_coordinator_deterministic :
    (∀ (pk : PublicKeys) (key : PubKey), pk.signers.lookup 0 = some key →
      calculate_coordinator pk = some (0, key)) ∧
    (∀ pk : PublicKeys, pk.signers.lookup 0 = none →
      calculate_coordinator pk = none) ∧
    (∀ pk pk' : PublicKeys, pk = pk' →
      calculate_coordinator pk = calculate_coordinator pk') := by
  refine ⟨?_, ?_, ?_⟩
  · intro pk key h
    unfold calculate_coordinator
    rw [h]
  · intro pk h
    unfold calculate_coordinator
    rw [h]
  · intro pk pk' h
    rw [h]

/-- Witness for C2 (amended) on a two-signer committee. -/
theorem calculate_coordinator_deterministic_witness :
    calculate_coordinator ⟨[(0, 7), (1, 8)], [(0, 7), (1, 8)]⟩ = some (0, 7) :=
  calculate_coordinator_deterministic.1 ⟨[(0, 7), (1, 8)], [(0, 7), (1, 8)]⟩ 7
    (by decide)

/-- C4: for both the `Dkg` and the `Sign` variants, when the round-start call
fails, `execute_command` resets the coordinator (reset count 1), returns
`false`, relays no message, and leaves the run state unchanged. -/
theorem execute_command_failure_no_transition :
    (∀ (co : CoordOracle) (a : Except Unit Ack) (st : State) (e : Unit),
      co.start_dkg_round = Except.error e →
      execute_command co a st RunLoopCommand.Dkg = (false, st, [], 1)) ∧
    (∀ (co : CoordOracle) (a : Except Unit Ack) (st : State)
        (message : List Nat) (is_taproot : Bool) (merkle_root : Option MerkleRoot) (e : Unit),
      co.start_signing_round message is_taproot merkle_root = Except.error e →
      execute_command co a st (RunLoopCommand.Sign message is_taproot merkle_root) =
        (false, st, [], 1)) := by
  constructor
  · intro co a st e h
    simp [execute_command, h]
  · intro co a st message is_taproot merkle_root e h
    simp [execute_command, h]

/-- Witness for C4: a coordinator that refuses to start either round, state
`Idle`. -/
theorem execute_command_failure_witness :
    execute_command ⟨Except.error (), fun _ _ _ => Except.error ()⟩
        (Except.ok 0) State.Idle RunLoopCommand.Dkg = (false, State.Idle, [], 1) ∧
    execute_command ⟨Except.error (), fun _ _ _ => Except.error ()⟩
        (Except.ok 0) State.Idle (RunLoopCommand.Sign [1] false none) =
      (false, State.Idle, [], 1) :=
  ⟨execute_command_failure_no_transition.1
      ⟨Except.error (), fun _ _ _ => Except.error ()⟩ (Except.ok 0) State.Idle () rfl,
    execute_command_failure_no_transition.2
      ⟨Except.error (), fun _ _ _ => Except.error ()⟩ (Except.ok 0) State.Idle
      [1] false none () rfl⟩

/-- C10: the success of `execute_command` depends only on the round-start
call: the whole result is independent of the stacker-db relay ack, and when
the start call returns `Ok` the command reports success and the state moves
to `Dkg`/`Sign`, even when the relay fails. -/
theorem execute_command_ignores_relay_ack :
    (∀ (co : CoordOracle) (a a' : Except Unit Ack) (st : State) (c : RunLoopCommand),
      execute_command co a st c = execute_command co a' st c) ∧
    (∀ (co : CoordOracle) (a : Except Unit Ack) (st : State) (m : Msg),
      co.start_dkg_round = Except.ok m →
      execute_command co a st RunLoopCommand.Dkg = (true, State.Dkg, [m], 0)) ∧
    (∀ (co : CoordOracle) (a : Except Unit Ack) (st : State)
        (message : List Nat) (is_taproot : Bool) (merkle_root : Option MerkleRoot) (m : Msg),
      co.start_signing_round message is_taproot merkle_root = Except.ok m →
      execute_command co a st (RunLoopCommand.Sign message is_taproot merkle_root) =
        (true, State.Sign, [m], 0)) := by
  refine ⟨?_, ?_, ?_⟩
  · intro co a a' st c
    cases c with
    | Dkg =>
      cases h : co.start_dkg_round <;> simp [execute_command, h]
    | Sign message is_taproot merkle_root =>
      cases h : co.start_signing_round message is_taproot merkle_root <;>
        simp [execute_command, h]
  · intro co a st m h
    simp [execute_command, h]
  · intro co a st message is_taproot merkle_root m h
    simp [execute_command, h]

/-- Witness for C10: the start call succeeds while the relay ack is an error;
the command still succeeds and the state becomes `Dkg`. -/
theorem execute_command_ignores_relay_ack_witness :
    execute_command ⟨Except.ok 9, fun _ _ _ => Except.ok 9⟩
        (Except.error ()) State.Idle RunLoopCommand.Dkg = (true, State.Dkg, [9], 0) :=
  execute_command_ignores_relay_ack.2.1
    ⟨Except.ok 9, fun _ _ _ => Except.ok 9⟩ (Except.error ()) State.Idle 9 rfl

/-- C3: when no aggregate public key is published and this node is the
coordinator, an absent-`Dkg` queue gets exactly one `Dkg` command pushed to
the front; and every successful call to the initialization routine ends in
state `Idle`, whether the key was present or absent. -/
theorem initRunLoop_enqueues_dkg :
    (∀ (rl : RL) (pk : PublicKeys) (sid cid : Nat) (key : PubKey),
      calculate_coordinator pk = some (cid, key) → cid = sid →
      RunLoopCommand.Dkg ∉ rl.commands →
      initRunLoop rl pk sid (Except.ok none) =
        Outcome.ok { rl with commands := RunLoopCommand.Dkg :: rl.commands,
                             state := State.Idle }) ∧
    (∀ (rl rl' : RL) (pk : PublicKeys) (sid : Nat)
        (r : Except ClientError (Option Point)),
      initRunLoop rl pk sid r = Outcome.ok rl' → rl'.state = State.Idle) := by
  constructor
  · intro rl pk sid cid key hcoord hid hnodkg
    have hh : rl.commands.head? ≠ some RunLoopCommand.Dkg := by
      intro h
      apply hnodkg
      cases hc : rl.commands with
      | nil => rw [hc] at h; simp at h
      | cons a t =>
        rw [hc] at h
        simp only [List.head?_cons, Option.some.injEq] at h
        rw [← h]
        exact List.mem_cons_self a t
    simp only [initRunLoop, hcoord]
    rw [if_pos ⟨hid, hh⟩]
  · intro rl rl' pk sid r h
    unfold initRunLoop at h
    split at h
    · cases h
    · injection h with h1
      subst h1
      rfl
    · split at h
      · cases h
      · split at h <;>
        · injection h with h1
          subst h1
          rfl

/-- Witness for C3: three-signer committee, empty queue, this node is signer
0 (the coordinator) and no key is published — a `Dkg` command lands at the
front and the state is `Idle`. -/
theorem initRunLoop_enqueues_dkg_witness :
    initRunLoop ⟨[], State.Uninitialized, none⟩
        ⟨[(0, 5), (1, 6), (2, 7)], [(0, 5), (1, 6), (2, 7)]⟩ 0 (Except.ok none) =
      Outcome.ok ⟨[RunLoopCommand.Dkg], State.Idle, none⟩ :=
  initRunLoop_enqueues_dkg.1 ⟨[], State.Uninitialized, none⟩
    ⟨[(0, 5), (1, 6), (2, 7)], [(0, 5), (1, 6), (2, 7)]⟩ 0 0 5 rfl rfl
    (by simp)

/-- The keep-or-drop decision for one chunk in the signer-channel filter. -/
theorem filter_packets_mem (decode : List Nat → Option StackerDBMessage)
    (verify : Packet → PublicKeys → PubKey → Bool) (pk : PublicKeys)
    (ck : PubKey) (chunks : List Chunk) (p : Packet) :
    p ∈ filter_packets decode verify pk ck chunks ↔
      ∃ c ∈ chunks, decode c.data = some (StackerDBMessage.Packet p) ∧
        verify p pk ck = true := by
  unfold filter_packets
  rw [List.mem_filterMap]
  constructor
  · rintro ⟨c, hc, hf⟩
    refine ⟨c, hc, ?_⟩
    rcases hd : decode c.data with _ | q
    · simp [hd] at hf
    · rcases q with q | b
      · by_cases hv : verify q pk ck = true
        · simp only [hd, hv, if_true] at hf
          injection hf with h1
          subst h1
          exact ⟨rfl, hv⟩
        · simp only [hd] at hf
          rw [if_neg hv] at hf
          cases hf
      · simp [hd] at hf
  · rintro ⟨c, hc, hd, hv⟩
    refine ⟨c, hc, ?_⟩
    simp [hd, hv]

/-- C5: in the signer-channel handler, a packet reaches the Signer and
Coordinator capabilities exactly when its chunk decodes to a
`ProtocolPacket` whose signature verifies against the committee keys and the
coordinator key; undecodable chunks, `Block` variants and unverified packets
never reach either capability, which are both fed precisely the filtered
set. -/
theorem signer_event_only_verified_packets :
    (∀ (decode : List Nat → Option StackerDBMessage)
        (verify : Packet → PublicKeys → PubKey → Bool)
        (pk : PublicKeys) (ck : PubKey) (chunks : List Chunk) (p : Packet),
      p ∈ filter_packets decode verify pk ck chunks ↔
        ∃ c ∈ chunks, decode c.data = some (StackerDBMessage.Packet p) ∧
          verify p pk ck = true) ∧
    (∀ (decode : List Nat → Option StackerDBMessage)
        (verify : Packet → PublicKeys → PubKey → Bool)
        (sp : List Packet → Except Unit (List Msg))
        (cp : List Packet → Except Unit (List Msg × List OperationResult))
        (rr : Nat → Except Unit Ack) (pk : PublicKeys) (chunks : List Chunk)
        (cid : Nat) (ck : PubKey),
      calculate_coordinator pk = some (cid, ck) →
      ∃ sends results,
        process_event_signer decode verify sp cp rr pk chunks =
          some (filter_packets decode verify pk ck chunks, sends, results)) := by
  constructor
  · exact filter_packets_mem
  · intro decode verify sp cp rr pk chunks cid ck hcoord
    simp only [process_event_signer, hcoord]
    exact ⟨_, _, rfl⟩

/-- Witness for C5: one verifying packet, one failing packet, one block and
one undecodable chunk — only the verifying packet reaches the capabilities. -/
theorem signer_event_only_verified_packets_witness :
    ∃ sends results,
      process_event_signer
          (fun d => if d = [1] then some (StackerDBMessage.Packet 10)
            else if d = [2] then some (StackerDBMessage.Packet 11)
            else if d = [3] then some (StackerDBMessage.Block 12) else none)
          (fun p _ _ => p = 10) (fun _ => Except.ok [])
          (fun _ => Except.ok ([], [])) (fun _ => Except.ok 0)
          ⟨[(0, 5)], [(0, 5)]⟩ [⟨0, [1]⟩, ⟨1, [2]⟩, ⟨2, [3]⟩, ⟨3, [4]⟩] =
        some ([10], sends, results) := by
  obtain ⟨sends, results, h⟩ := signer_event_only_verified_packets.2
    (fun d => if d = [1] then some (StackerDBMessage.Packet 10)
      else if d = [2] then some (StackerDBMessage.Packet 11)
      else if d = [3] then some (StackerDBMessage.Block 12) else none)
    (fun p _ _ => p = 10) (fun _ => Except.ok []) (fun _ => Except.ok ([], []))
    (fun _ => Except.ok 0) ⟨[(0, 5)], [(0, 5)]⟩
    [⟨0, [1]⟩, ⟨1, [2]⟩, ⟨2, [3]⟩, ⟨3, [4]⟩] 0 5 rfl
  refine ⟨sends, results, ?_⟩
  rw [h]
  rfl

/-- C6: in the miner-channel handler a decoded block proposal appends exactly
one `Sign` command (serialized block, no taproot, no merkle root) to the back
of the queue when this node is the coordinator and validation answers
`Ok(true)`; when the node is not the coordinator, or validation answers
`Ok(false)` or fails, the queue is unchanged. -/
theorem miner_event_block_proposal :
    (∀ (decode : List Nat → Option StackerDBMessage)
        (isValidBlock : Block → Except ClientError Bool)
        (serialize : Block → List Nat) (pk : PublicKeys) (sid : Nat)
        (cmds : List RunLoopCommand) (chunk : Chunk) (block : Block)
        (cid : Nat) (key : PubKey),
      calculate_coordinator pk = some (cid, key) →
      decode chunk.data = some (StackerDBMessage.Block block) →
      cid = sid → isValidBlock block = Except.ok true →
      process_event_miner decode isValidBlock serialize pk sid cmds [chunk] =
        some (cmds ++ [RunLoopCommand.Sign (serialize block) false none])) ∧
    (∀ (decode : List Nat → Option StackerDBMessage)
        (isValidBlock : Block → Except ClientError Bool)
        (serialize : Block → List Nat) (pk : PublicKeys) (sid : Nat)
        (cmds : List RunLoopCommand) (chunk : Chunk) (block : Block)
        (cid : Nat) (key : PubKey),
      calculate_coordinator pk = some (cid, key) →
      decode chunk.data = some (StackerDBMessage.Block block) →
      cid ≠ sid →
      process_event_miner decode isValidBlock serialize pk sid cmds [chunk] =
        some cmds) ∧
    (∀ (decode : List Nat → Option StackerDBMessage)
        (isValidBlock : Block → Except ClientError Bool)
        (serialize : Block → List Nat) (pk : PublicKeys) (sid : Nat)
        (cmds : List RunLoopCommand) (chunk : Chunk) (block : Block)
        (cid : Nat) (key : PubKey),
      calculate_coordinator pk = some (cid, key) →
      decode chunk.data = some (StackerDBMessage.Block block) →
      (isValidBlock block = Except.ok false ∨
        ∃ e, isValidBlock block = Except.error e) →
      process_event_miner decode isValidBlock serialize pk sid cmds [chunk] =
        some cmds) := by
  refine ⟨?_, ?_, ?_⟩
  · intro decode isValidBlock serialize pk sid cmds chunk block cid key
      hcoord hdec hid hvalid
    subst hid
    simp [process_event_miner, miner_chunk_step, hcoord, hdec, hvalid]
  · intro decode isValidBlock serialize pk sid cmds chunk block cid key
      hcoord hdec hid
    simp [process_event_miner, miner_chunk_step, hcoord, hdec, hid]
  · intro decode isValidBlock serialize pk sid cmds chunk block cid key
      hcoord hdec hvalid
    rcases hvalid with hvalid | ⟨e, hvalid⟩ <;>
      by_cases hid : cid = sid <;>
        simp [process_event_miner, miner_chunk_step, hcoord, hdec, hid, hvalid]

/-- Witness for C6: a coordinator node receives a block proposal that
validates; one `Sign` command over the serialized block lands at the back of
the queue. -/
theorem miner_event_block_proposal_witness :
    process_event_miner (fun _ => some (StackerDBMessage.Block 12))
        (fun _ => Except.ok true) (fun b => [b, b]) ⟨[(0, 5)], [(0, 5)]⟩ 0
        [RunLoopCommand.Dkg] [⟨0, [9]⟩] =
      some ([RunLoopCommand.Dkg] ++ [RunLoopCommand.Sign [12, 12] false none]) :=
  miner_event_block_proposal.1 (fun _ => some (StackerDBMessage.Block 12))
    (fun _ => Except.ok true) (fun b => [b, b]) ⟨[(0, 5)], [(0, 5)]⟩ 0
    [RunLoopCommand.Dkg] ⟨0, [9]⟩ 12 0 5 rfl rfl rfl rfl

/-- Mapping an enumerated relay-tagging back to the message list. -/
theorem enum_relay_map_fst (l : List Msg) (rr : Nat → Except Unit Ack) :
    (l.enum.map (fun p => (p.2, rr p.1))).map Prod.fst = l := by
  rw [List.map_map]
  have h : (Prod.fst ∘ fun p : Nat × Msg => (p.2, rr p.1)) = Prod.snd := rfl
  rw [h, List.enum_map_snd]

/-- C7: errors inside the signer-channel handler are contained: a Signer
capability failure is treated as an empty outbound list while the
Coordinator is still invoked on the same packet set; a Coordinator failure
is treated as empty outbound and outcome lists; every outbound message is
relayed no matter what any relay attempt returns (the visible behaviour is
independent of the relay results); and the handler always returns the
Coordinator's outcome list. -/
theorem signer_event_error_containment :
    (∀ (decode : List Nat → Option StackerDBMessage)
        (verify : Packet → PublicKeys → PubKey → Bool)
        (cp : List Packet → Except Unit (List Msg × List OperationResult))
        (rr : Nat → Except Unit Ack) (pk : PublicKeys) (chunks : List Chunk)
        (cid : Nat) (ck : PubKey) (ms : List Msg) (rs : List OperationResult),
      calculate_coordinator pk = some (cid, ck) →
      cp (filter_packets decode verify pk ck chunks) = Except.ok (ms, rs) →
      process_event_signer decode verify (fun _ => Except.error ()) cp rr pk chunks =
        some (filter_packets decode verify pk ck chunks,
          ms.enum.map (fun q => (q.2, rr q.1)), rs)) ∧
    (∀ (decode : List Nat → Option StackerDBMessage)
        (verify : Packet → PublicKeys → PubKey → Bool)
        (sp : List Packet → Except Unit (List Msg))
        (rr : Nat → Except Unit Ack) (pk : PublicKeys) (chunks : List Chunk)
        (cid : Nat) (ck : PubKey) (ms : List Msg),
      calculate_coordinator pk = some (cid, ck) →
      sp (filter_packets decode verify pk ck chunks) = Except.ok ms →
      process_event_signer decode verify sp (fun _ => Except.error ()) rr pk chunks =
        some (filter_packets decode verify pk ck chunks,
          ms.enum.map (fun q => (q.2, rr q.1)), [])) ∧
    (∀ (decode : List Nat → Option StackerDBMessage)
        (verify : Packet → PublicKeys → PubKey → Bool)
        (sp : List Packet → Except Unit (List Msg))
        (cp : List Packet → Except Unit (List Msg × List OperationResult))
        (rr rr' : Nat → Except Unit Ack) (pk : PublicKeys) (chunks : List Chunk),
      Option.map (fun t => (t.1, t.2.1.map Prod.fst, t.2.2))
          (process_event_signer decode verify sp cp rr pk chunks) =
        Option.map (fun t => (t.1, t.2.1.map Prod.fst, t.2.2))
          (process_event_signer decode verify sp cp rr' pk chunks)) ∧
    (∀ (decode : List Nat → Option StackerDBMessage)
        (verify : Packet → PublicKeys → PubKey → Bool)
        (sp : List Packet → Except Unit (List Msg))
        (cp : List Packet → Except Unit (List Msg × List OperationResult))
        (rr : Nat → Except Unit Ack) (pk : PublicKeys) (chunks : List Chunk)
        (inbound : List Packet) (sends : List (Msg × Except Unit Ack))
        (results : List OperationResult),
      process_event_signer decode verify sp cp rr pk chunks =
        some (inbound, sends, results) →
      results = (match cp inbound with
        | Except.ok r => r.2
        | Except.error _ => [])) := by
  refine ⟨?_, ?_, ?_, ?_⟩
  · intro decode verify cp rr pk chunks cid ck ms rs hcoord hcp
    simp [process_event_signer, hcoord, hcp]
  · intro decode verify sp rr pk chunks cid ck ms hcoord hsp
    simp [process_event_signer, hcoord, hsp]
  · intro decode verify sp cp rr rr' pk chunks
    rcases hc : calculate_coordinator pk with _ | ⟨cid, ck⟩
    · simp [process_event_signer, hc]
    · simp only [process_event_signer, hc, Option.map_some]
      rcases hcp : cp (filter_packets decode verify pk ck chunks) with e | ⟨ms, rs⟩ <;>
        simp [hcp, enum_relay_map_fst]
  · intro decode verify sp cp rr pk chunks inbound sends results h
    rcases hc : calculate_coordinator pk with _ | ⟨cid, ck⟩
    · simp [process_event_signer, hc] at h
    · simp only [process_event_signer, hc] at h
      rcases hcp : cp (filter_packets decode verify pk ck chunks) with e | ⟨ms, rs⟩ <;>
      · simp only [hcp, Option.some.injEq, Prod.mk.injEq] at h
        obtain ⟨h1, h2, h3⟩ := h
        subst h1
        rw [hcp]
        exact h3.symm

/-- The retry loop stops at the first successful round start: with `fails`
all-failing oracles followed by a succeeding one, the loop runs
`fails.length + 1` attempts and relays exactly the one message from the
successful start. -/
theorem executeLoop_first_success (a : Except Unit Ack) (c : RunLoopCommand)
    (m : Msg) :
    ∀ (fails : List CoordOracle) (okCo : CoordOracle) (rest : List CoordOracle)
      (st : State),
      (∀ co ∈ fails, startResult co c = Except.error ()) →
      startResult okCo c = Except.ok m →
      executeLoop a st c (fails ++ okCo :: rest) =
        some (commandState c, [m], fails.length, fails.length + 1) := by
  intro fails
  induction fails with
  | nil =>
    intro okCo rest st hf hok
    simp only [List.nil_append, executeLoop, execute_command_eq, hok,
      List.length_nil]
  | cons f fs ih =>
    intro okCo rest st hf hok
    have hfe : startResult f c = Except.error () :=
      hf f (List.mem_cons_self f fs)
    simp only [List.cons_append, executeLoop, execute_command_eq, hfe,
      List.append_eq]
    rw [ih okCo rest st (fun co hco => hf co (List.mem_cons_of_mem f hco)) hok]
    simp [Nat.add_comm]

/-- C8: when `Idle` with a non-empty queue, `process_next_command` pops
exactly the front command and retries it until the round starts: with
`fails.length` failing attempts before the first success, it performs
`fails.length + 1` calls of `execute_command` on that same command, exactly
one of which succeeds (one message relayed), and ends in the command's
running state with the rest of the queue untouched. -/
theorem process_next_command_drains_front (a : Except Unit Ack)
    (fails : List CoordOracle) (okCo : CoordOracle) (rest : List CoordOracle)
    (c : RunLoopCommand) (cmds : List RunLoopCommand) (m : Msg)
    (hf : ∀ co ∈ fails, startResult co c = Except.error ())
    (hok : startResult okCo c = Except.ok m) :
    process_next_command a (fails ++ okCo :: rest) (c :: cmds) State.Idle =
      some (cmds, commandState c, [m], fails.length, fails.length + 1) := by
  simp only [process_next_command]
  rw [executeLoop_first_success a c m fails okCo rest State.Idle hf hok]

/-- Witness for C8 (spec scenario): queue holds one `Sign` command, the start
call fails twice then succeeds — three attempts, one relayed message, final
state `Sign`, empty queue. -/
theorem process_next_command_drains_front_witness :
    process_next_command (Except.ok 0)
        ([⟨Except.error (), fun _ _ _ => Except.error ()⟩,
          ⟨Except.error (), fun _ _ _ => Except.error ()⟩] ++
          ⟨Except.ok 9, fun _ _ _ => Except.ok 9⟩ :: [])
        (RunLoopCommand.Sign [1, 2] false none :: []) State.Idle =
      some ([], State.Sign, [9], 2, 2 + 1) := by
  have h := process_next_command_drains_front (Except.ok 0)
    [⟨Except.error (), fun _ _ _ => Except.error ()⟩,
      ⟨Except.error (), fun _ _ _ => Except.error ()⟩]
    ⟨Except.ok 9, fun _ _ _ => Except.ok 9⟩ []
    (RunLoopCommand.Sign [1, 2] false none) [] 9
    (by
      intro co hco
      simp only [List.mem_cons, List.not_mem_nil, or_false] at hco
      rcases hco with rfl | rfl <;> rfl)
    rfl
  exact h

/-- Witness for C7: the Signer capability fails, the Coordinator still runs
on the filtered packet set and its outcome list is returned; the one
outbound coordinator message is relayed. -/
theorem signer_event_error_containment_witness :
    process_event_signer
        (fun d => if d = [1] then some (StackerDBMessage.Packet 10) else none)
        (fun _ _ _ => true) (fun _ => Except.error ())
        (fun _ => Except.ok ([5], [77])) (fun _ => Except.ok 0)
        ⟨[(0, 5)], [(0, 5)]⟩ [⟨0, [1]⟩] =
      some ([10], [(5, Except.ok 0)], [77]) := by
  have h := signer_event_error_containment.1
    (fun d => if d = [1] then some (StackerDBMessage.Packet 10) else none)
    (fun _ _ _ => true) (fun _ => Except.ok ([5], [77])) (fun _ => Except.ok 0)
    ⟨[(0, 5)], [(0, 5)]⟩ [⟨0, [1]⟩] 0 5 [5] [77] rfl rfl
  rw [h]
  rfl

/-- One miner-channel chunk can only extend the command queue at the back. -/
theorem miner_chunk_step_extends (decode : List Nat → Option StackerDBMessage)
    (isValidBlock : Block → Except ClientError Bool)
    (serialize : Block → List Nat) (cid sid : Nat)
    (cmds : List RunLoopCommand) (chunk : Chunk) :
    ∃ extra, miner_chunk_step decode isValidBlock serialize cid sid cmds chunk =
      cmds ++ extra := by
  unfold miner_chunk_step
  rcases decode chunk.data with _ | (q | b)
  · exact ⟨[], (List.append_nil cmds).symm⟩
  · exact ⟨[], (List.append_nil cmds).symm⟩
  · dsimp only
    by_cases h : cid = sid
    · rw [if_pos h]
      rcases isValidBlock b with e | v
      · exact ⟨[], (List.append_nil cmds).symm⟩
      · rcases v with _ | _
        · exact ⟨[], (List.append_nil cmds).symm⟩
        · exact ⟨[RunLoopCommand.Sign (serialize b) false none], rfl⟩
    · rw [if_neg h]
      exact ⟨[], (List.append_nil cmds).symm⟩

/-- The whole miner-channel pass only extends the command queue at the back. -/
theorem foldl_miner_extends (decode : List Nat → Option StackerDBMessage)
    (isValidBlock : Block → Except ClientError Bool)
    (serialize : Block → List Nat) (cid sid : Nat) :
    ∀ (chunks : List Chunk) (cmds : List RunLoopCommand),
      ∃ extra,
        chunks.foldl (miner_chunk_step decode isValidBlock serialize cid sid)
          cmds = cmds ++ extra := by
  intro chunks
  induction chunks with
  | nil => intro cmds; exact ⟨[], (List.append_nil cmds).symm⟩
  | cons ch chs ih =>
    intro cmds
    obtain ⟨d1, hd1⟩ :=
      miner_chunk_step_extends decode isValidBlock serialize cid sid cmds ch
    obtain ⟨d2, hd2⟩ :=
      ih (miner_chunk_step decode isValidBlock serialize cid sid cmds ch)
    refine ⟨d1 ++ d2, ?_⟩
    rw [List.foldl_cons, hd2, hd1, List.append_assoc]

/-- `process_event_miner` only extends the command queue at the back. -/
theorem process_event_miner_extends (decode : List Nat → Option StackerDBMessage)
    (isValidBlock : Block → Except ClientError Bool)
    (serialize : Block → List Nat) (pk : PublicKeys) (sid : Nat)
    (cmds cmds' : List RunLoopCommand) (chunks : List Chunk) :
    process_event_miner decode isValidBlock serialize pk sid cmds chunks =
      some cmds' →
    ∃ extra, cmds' = cmds ++ extra := by
  intro h
  unfold process_event_miner at h
  rcases hc : calculate_coordinator pk with _ | ⟨cid, key⟩ <;> rw [hc] at h
  · cases h
  · injection h with h1
    obtain ⟨extra, he⟩ :=
      foldl_miner_extends decode isValidBlock serialize cid sid chunks cmds
    exact ⟨extra, h1 ▸ he⟩

/-- While a round is running (`Dkg` or `Sign`), `process_next_command` is a
no-op: queue and state untouched, no `execute_command` call. -/
theorem process_next_command_dormant (a : Except Unit Ack)
    (cos : List CoordOracle) (cmds : List RunLoopCommand) (st : State)
    (h : st = State.Dkg ∨ st = State.Sign) :
    process_next_command a cos cmds st = some (cmds, st, [], 0, 0) := by
  rcases h with rfl | rfl <;> rfl

/-- Event dispatch that yields an empty outcome batch keeps the state and
only appends to the command queue. -/
theorem dispatch_event_no_outcome (env : Env) (rl : RL) (ev : Event)
    (rl2 : RL) (emitted : List OperationResult)
    (h : dispatch_event env rl ev = some (rl2, emitted)) (hemit : emitted = []) :
    rl2.state = rl.state ∧ ∃ extra, rl2.commands = rl.commands ++ extra := by
  subst hemit
  unfold dispatch_event at h
  split at h
  · split at h
    · cases h
    · rename_i cmds1 heq
      injection h with h'
      injection h' with h1 h2
      subst h1
      exact ⟨rfl, process_event_miner_extends env.decode env.isValidBlock
        env.serialize env.public_keys env.signer_id rl.commands cmds1
        ev.modified_slots heq⟩
  · split at h
    · split at h
      · cases h
      · rename_i inb rest heq
        split at h
        · rename_i hlen
          injection h with h'
          injection h' with h1 h2
          rw [h2] at hlen
          simp at hlen
        · injection h with h'
          injection h' with h1 h2
          subst h1
          exact ⟨rfl, [], (List.append_nil rl.commands).symm⟩
    · injection h with h'
      injection h' with h1 h2
      subst h1
      exact ⟨rfl, [], (List.append_nil rl.commands).symm⟩

/-- C1: at most one round is in flight.  A successful `execute_command`
always moves the state to `Dkg` or `Sign`; while the state is `Dkg` or
`Sign`, `process_next_command` starts nothing and changes nothing; and a
whole pass entered in `Dkg`/`Sign` that observes no outcome batch keeps the
state, never calls `execute_command`, and only queues newly arrived commands
behind the existing ones. -/
theorem at_most_one_round_in_flight :
    (∀ (co : CoordOracle) (a : Except Unit Ack) (st : State) (c : RunLoopCommand),
      (execute_command co a st c).1 = true →
      (execute_command co a st c).2.1 = State.Dkg ∨
        (execute_command co a st c).2.1 = State.Sign) ∧
    (∀ (a : Except Unit Ack) (cos : List CoordOracle)
        (cmds : List RunLoopCommand) (st : State),
      st = State.Dkg ∨ st = State.Sign →
      process_next_command a cos cmds st = some (cmds, st, [], 0, 0)) ∧
    (∀ (env : Env) (rl rl' : RL) (ev : Option Event)
        (cmd : Option RunLoopCommand) (emitted : List OperationResult)
        (attempts : Nat),
      rl.state = State.Dkg ∨ rl.state = State.Sign →
      run_one_pass env rl ev cmd = some (rl', emitted, attempts) →
      emitted = [] →
      rl'.state = rl.state ∧ attempts = 0 ∧
        ∃ extra, rl'.commands = rl.commands ++ cmd.toList ++ extra) := by
  refine ⟨?_, ?_, ?_⟩
  · intro co a st c hsucc
    rcases c with _ | ⟨message, is_taproot, merkle_root⟩
    · cases h : co.start_dkg_round with
      | ok m => left; simp [execute_command, h]
      | error e => simp [execute_command, h] at hsucc
    · cases h : co.start_signing_round message is_taproot merkle_root with
      | ok m => right; simp [execute_command, h]
      | error e => simp [execute_command, h] at hsucc
  · intro a cos cmds st h
    rcases h with rfl | rfl <;> rfl
  · intro env rl rl' ev cmd emitted attempts hst h hemit
    simp only [run_one_pass] at h
    have hne : rl.state = State.Uninitialized → False := by
      rcases hst with h1 | h1 <;> rw [h1] <;> intro hx <;> cases hx
    rw [if_neg hne] at h
    rcases ev with _ | e
    · dsimp only at h
      rw [process_next_command_dormant env.relayAck env.startOracles
        (rl.commands ++ cmd.toList) rl.state hst] at h
      injection h with h'
      injection h' with h1 h2
      injection h2 with h2 h3
      subst h1
      subst h3
      exact ⟨rfl, rfl, [], by simp⟩
    · dsimp only at h
      rcases hd : dispatch_event env
          { rl with commands := rl.commands ++ cmd.toList } e with _ | p
      · rw [hd] at h
        cases h
      · obtain ⟨rl2, emitted2⟩ := p
        rw [hd] at h
        dsimp only at h
        rcases hp : process_next_command env.relayAck env.startOracles
            rl2.commands rl2.state with _ | q
        · rw [hp] at h
          cases h
        · obtain ⟨cmds2, st2, msgs2, r2, at2⟩ := q
          rw [hp] at h
          injection h with h'
          injection h' with h1 h2
          injection h2 with h2 h3
          subst h1
          subst h3
          obtain ⟨hstate, extra, hcmds⟩ :=
            dispatch_event_no_outcome env
              { rl with commands := rl.commands ++ cmd.toList } e rl2 emitted2 hd
              (h2.trans hemit)
          have hst2 : rl2.state = State.Dkg ∨ rl2.state = State.Sign := by
            rw [hstate]
            exact hst
          rw [process_next_command_dormant env.relayAck env.startOracles
            rl2.commands rl2.state hst2] at hp
          injection hp with hp'
          injection hp' with hp1 hp2
          injection hp2 with hp2 hp3
          injection hp3 with hp3 hp4
          injection hp4 with hp4 hp5
          subst hp1
          subst hp2
          subst hp5
          refine ⟨hstate, rfl, extra, ?_⟩
          simp only at hcmds ⊢
          rw [hcmds, List.append_assoc]

/-- A concrete environment for exercising `run_one_pass` on closed inputs. -/
def envW : Env where
  minersId := 0
  signersId := 1
  public_keys := ⟨[(0, 5)], [(0, 5)]⟩
  signer_id := 0
  decode := fun _ => none
  verify := fun _ _ _ => true
  signerProcess := fun _ => Except.ok []
  coordProcess := fun _ => Except.ok ([], [])
  relayRes := fun _ => Except.ok 0
  isValidBlock := fun _ => Except.ok true
  serialize := fun b => [b]
  getAggKey := Except.ok none
  startOracles := []
  relayAck := Except.ok 0

/-- Witness for C1: a pass entered in state `Dkg` with a newly arrived `Dkg`
command and no event keeps the state, performs zero `execute_command`
attempts, and only queues the new command. -/
theorem at_most_one_round_in_flight_witness :
    (⟨[RunLoopCommand.Dkg], State.Dkg, none⟩ : RL).state =
        (⟨[], State.Dkg, none⟩ : RL).state ∧
      (0 : Nat) = 0 ∧
      ∃ extra, (⟨[RunLoopCommand.Dkg], State.Dkg, none⟩ : RL).commands =
        (⟨[], State.Dkg, none⟩ : RL).commands ++
          (some RunLoopCommand.Dkg).toList ++ extra :=
  at_most_one_round_in_flight.2.2 envW ⟨[], State.Dkg, none⟩
    ⟨[RunLoopCommand.Dkg], State.Dkg, none⟩ none (some RunLoopCommand.Dkg) [] 0
    (Or.inl rfl) rfl rfl

end StacksSigner
